import Mathlib

/-!
Verification of the CSV bulk-ingestion pipeline of the influencer repository.

The definitions below are a shallow embedding of:
  - `ImportService.importCSV`, `ImportService.transformRowToPost`,
    `ImportService.processBatch` (src/presentation, import service),
  - `PrismaInfluencerPostRepository.bulkCreate` (src/infrastructure).

Host JavaScript primitives (`parseInt(s, 10)`, `new Date(s)`, string
truthiness) are modelled explicitly.  The database is modelled as the list
of persisted external post identifiers; batch-persistence failures are
modelled by a boolean oracle indexed by flush number.  Each run is
instrumented with a log of flush records so that batch-level claims can be
stated.
-/

namespace Influencer

/-- Characters JavaScript `parseInt` skips before reading the number. -/
def jsWhitespace (c : Char) : Bool :=
  c = ' ' ∨ c = '\t' ∨ c = '\n' ∨ c = '\r'

/-- Numeric value of a decimal digit character. -/
def digitVal (c : Char) : Nat := c.toNat - 48

/-- The maximal leading run of decimal digits, as a number; `none` when the
run is empty (JavaScript `NaN`). -/
def leadingDigits (cs : List Char) : Option Nat :=
  match cs.takeWhile Char.isDigit with
  | [] => none
  | ds => some (ds.foldl (fun a c => a * 10 + digitVal c) 0)

/-- Host model: JavaScript `parseInt(s, 10)`.  Skips leading whitespace,
reads an optional sign and then the longest run of decimal digits; `none`
models `NaN` (no digits at all). -/
def parseIntJS (s : String) : Option Int :=
  match s.data.dropWhile jsWhitespace with
  | '-' :: rest => (leadingDigits rest).map (fun n => -(n : Int))
  | '+' :: rest => (leadingDigits rest).map (fun n => (n : Int))
  | rest => (leadingDigits rest).map (fun n => (n : Int))

/-- Host model: a JavaScript `Date` object is either a valid instant or the
`Invalid Date` value produced when the constructor cannot parse its
argument. -/
inductive JSDate where
  | valid (code : Int)
  | invalid
deriving DecidableEq

/-- A list of characters that is a non-empty run of decimal digits, as a
number. -/
def decDigits (cs : List Char) : Option Nat :=
  if cs ≠ [] ∧ cs.all Char.isDigit then
    some (cs.foldl (fun a c => a * 10 + digitVal c) 0)
  else none

/-- Split a character list at every dash. -/
def splitDash : List Char → List (List Char)
  | [] => [[]]
  | c :: rest =>
    if c = '-' then [] :: splitDash rest
    else
      match splitDash rest with
      | [] => [[c]]
      | g :: gs => (c :: g) :: gs

/-- Host model: the date strings JavaScript `new Date` accepts, restricted
to ISO `YYYY-MM-DD`; every other string yields `none` and hence an
`Invalid Date`. -/
def parseYMD (s : String) : Option Int :=
  match splitDash s.data with
  | [y, m, d] =>
    match decDigits y, decDigits m, decDigits d with
    | some yn, some mn, some dn =>
      if 1 ≤ mn ∧ mn ≤ 12 ∧ 1 ≤ dn ∧ dn ≤ 31 then
        some ((yn * 10000 + mn * 100 + dn : Nat) : Int)
      else none
    | _, _, _ => none
  | _ => none

/-- Host model: JavaScript `new Date(s)` — a valid instant when the string
parses, the `Invalid Date` object otherwise. -/
def jsNewDate (s : String) : JSDate :=
  match parseYMD s with
  | some t => JSDate.valid t
  | none => JSDate.invalid

/-- One decoded CSV row (interface `CSVRow`).  A field is `none` when the
column is absent from the row object. -/
structure CSVRow where
  influencer_id : Option String
  post_id : Option String
  shortcode : Option String
  likes : Option String
  comments : Option String
  thumbnail : Option String
  text : Option String
  post_date : Option String
deriving DecidableEq

/-- JavaScript truthiness of an optional string field: `undefined` and the
empty string are falsy. -/
def truthy (o : Option String) : Bool := o.getD "" ≠ ""

/-- `parseInt(field, 10)` on an optional string column: an absent column
stringifies to `"undefined"` and parses to `NaN`. -/
def parseIntField (o : Option String) : Option Int :=
  match o with
  | none => none
  | some s => parseIntJS s

/-- JavaScript `x || 0` applied to a `parseInt` result: `NaN` maps to 0 and
the falsy number 0 maps to 0, so this is exactly `Option.getD 0`. -/
def jsOrZero (o : Option Int) : Int :=
  match o with
  | none => 0
  | some n => n

/-- JavaScript `field || undefined`: empty strings normalize to absence. -/
def orUndefined (o : Option String) : Option String :=
  if truthy o then o else none

/-- The validated in-memory record (interface `PostData`). -/
structure PostData where
  influencerId : Int
  postId : String
  shortcode : Option String
  likes : Int
  comments : Int
  thumbnail : Option String
  text : Option String
  postDate : Option JSDate
deriving DecidableEq

/-- `ImportService.transformRowToPost`: builds the record field by field
and then throws when `isNaN(influencerId)` or the post id is falsy. -/
def transformRowToPost (row : CSVRow) : Except Unit PostData :=
  let postId := if truthy row.post_id then row.post_id.getD "" else ""
  match parseIntField row.influencer_id with
  | none => Except.error ()
  | some iid =>
    if postId = "" then Except.error ()
    else Except.ok
      { influencerId := iid
        postId := postId
        shortcode := orUndefined row.shortcode
        likes := jsOrZero (parseIntField row.likes)
        comments := jsOrZero (parseIntField row.comments)
        thumbnail := orUndefined row.thumbnail
        text := orUndefined row.text
        postDate :=
          if truthy row.post_date then some (jsNewDate (row.post_date.getD ""))
          else none }

/-- The repository's sub-chunk size for the existence lookup
(`const BATCH_SIZE = 500` in the Prisma repository module). -/
def BATCH_SIZE : Nat := 500

/-- Fuel-based recursion for the chunking loop (the fuel is only a bound
on the number of iterations; `chunkIds` supplies enough of it). -/
def chunkIdsAux : Nat → List String → List (List String)
  | _, [] => []
  | 0, _ :: _ => []
  | Nat.succ fuel, a :: t =>
    (a :: t).take BATCH_SIZE :: chunkIdsAux fuel ((a :: t).drop BATCH_SIZE)

/-- The `for (let i = 0; i < postIds.length; i += BATCH_SIZE)` slicing of
the candidate id list into sub-chunks. -/
def chunkIds (l : List String) : List (List String) :=
  chunkIdsAux l.length l

/-- The chunked existence lookup: each sub-chunk is answered by a
`findMany (postId in chunk)` against the store and the answers are
concatenated. -/
def lookupExisting (store : List String) (postIds : List String) : List String :=
  ((chunkIds postIds).map (fun batch => store.filter (fun x => x ∈ batch))).flatten

/-- Result of `bulkCreate`, together with the store it leaves behind. -/
structure BulkResult where
  created : List PostData
  skipped : List PostData
  store : List String
deriving DecidableEq

/-- `PrismaInfluencerPostRepository.bulkCreate`: chunked existence lookup,
partition of the candidates by membership in the existing-id set, then a
`createMany` with `skipDuplicates` (modelled on the store as inserting each
not-yet-present id once), returning the `toCreate` list as `created`. -/
def bulkCreate (store : List String) (posts : List PostData) : BulkResult :=
  let postIds := posts.map (fun p => p.postId)
  let existingIds := lookupExisting store postIds
  let toCreate := posts.filter (fun p => ¬ p.postId ∈ existingIds)
  let skipped := posts.filter (fun p => p.postId ∈ existingIds)
  let store' :=
    if toCreate.length > 0 then
      store ++ ((toCreate.map (fun p => p.postId)).dedup.filter (fun x => ¬ x ∈ store))
    else store
  { created := toCreate, skipped := skipped, store := store' }

/-- Run-level accumulator (interface `ImportResult`). -/
structure ImportResult where
  totalProcessed : Nat
  totalImported : Nat
  totalErrors : Nat
  fileName : String
  fileSize : Nat
deriving DecidableEq

/-- Instrumentation: one record per `processBatch` call, carrying the batch
size handed in, the sizes of the created/skipped partitions (zero when the
persistence layer threw) and whether the call succeeded. -/
structure FlushRec where
  size : Nat
  createdCount : Nat
  skippedCount : Nat
  ok : Bool
deriving DecidableEq

/-- The mutable state of one `importCSV` run: the store, the batch buffer,
the result accumulator and the flush log. -/
structure LoopState where
  store : List String
  buffer : List PostData
  results : ImportResult
  flushes : List FlushRec
deriving DecidableEq

namespace ImportService

/-- `ImportService.BATCH_SIZE`: the ingestion batch threshold. -/
def BATCH_SIZE : Nat := 1000

end ImportService

/-- `results.totalProcessed++` on the loop state. -/
def bumpProcessed (st : LoopState) : LoopState :=
  { st with
    results :=
      { st.results with totalProcessed := st.results.totalProcessed + 1 } }

/-- `results.totalErrors++` on the loop state. -/
def bumpErrors (st : LoopState) : LoopState :=
  { st with
    results := { st.results with totalErrors := st.results.totalErrors + 1 } }

/-- Replace the buffer of the loop state. -/
def withBuffer (st : LoopState) (b : List PostData) : LoopState :=
  { st with buffer := b }

/-- `ImportService.processBatch`: hands the posts to `bulkCreate`; on
success adds `created.length` to `totalImported`, on a thrown error adds
the full batch length to `totalErrors`.  The oracle `fail` says whether the
persistence layer throws for the current (flush-log-indexed) call. -/
def processBatch (fail : Nat → Bool) (st : LoopState) (posts : List PostData) :
    LoopState :=
  if fail st.flushes.length then
    { st with
      results :=
        { st.results with totalErrors := st.results.totalErrors + posts.length }
      flushes := st.flushes ++ [⟨posts.length, 0, 0, false⟩] }
  else
    let r := bulkCreate st.store posts
    { st with
      store := r.store
      results :=
        { st.results with
          totalImported := st.results.totalImported + r.created.length }
      flushes :=
        st.flushes ++ [⟨posts.length, r.created.length, r.skipped.length, true⟩] }

/-- A field value that the empty-row check treats as empty
(`v === '' || v === undefined`). -/
def emptyVal (o : Option String) : Bool := o = none ∨ o = some ""

/-- The `Object.values(row).every(...)` empty-row check. -/
def isEmptyRow (row : CSVRow) : Bool :=
  emptyVal row.influencer_id && emptyVal row.post_id && emptyVal row.shortcode &&
  emptyVal row.likes && emptyVal row.comments && emptyVal row.thumbnail &&
  emptyVal row.text && emptyVal row.post_date

/-- The defensive header-row check. -/
def isHeaderRow (row : CSVRow) : Bool :=
  row.influencer_id = some "influencer_id" && row.post_id = some "post_id"

/-- The `for await (const row of stream)` loop body of
`ImportService.importCSV`, without the final drain: skip blank and header
rows; count the row; on a transform error count an error and continue; on
success append to the buffer and flush when the threshold is reached. -/
def stepRows (fail : Nat → Bool) : List CSVRow → LoopState → LoopState
  | [], st => st
  | row :: rest, st =>
    if isEmptyRow row || isHeaderRow row then stepRows fail rest st
    else
      let st1 := bumpProcessed st
      match transformRowToPost row with
      | Except.error _ => stepRows fail rest (bumpErrors st1)
      | Except.ok post =>
        let buf := st1.buffer ++ [post]
        if buf.length ≥ ImportService.BATCH_SIZE then
          stepRows fail rest (processBatch fail (withBuffer st1 []) buf)
        else
          stepRows fail rest (withBuffer st1 buf)

/-- The final `if (posts.length > 0) processBatch(posts, results)` after the
stream is exhausted. -/
def drainBuffer (fail : Nat → Bool) (st : LoopState) : LoopState :=
  if st.buffer.length > 0 then processBatch fail (withBuffer st []) st.buffer
  else st

/-- The state at the top of `importCSV`: zeroed counters, empty buffer. -/
def initState (store : List String) (fileName : String) (fileSize : Nat) :
    LoopState :=
  { store := store
    buffer := []
    results :=
      { totalProcessed := 0
        totalImported := 0
        totalErrors := 0
        fileName := fileName
        fileSize := fileSize }
    flushes := [] }

/-- One whole run over an already-decoded row list. -/
def runRows (fail : Nat → Bool) (store : List String) (rows : List CSVRow)
    (fileName : String) (fileSize : Nat) : LoopState :=
  drainBuffer fail (stepRows fail rows (initState store fileName fileSize))

/-- `ImportService.importCSV`: a stream that fails to decode propagates as
an exception; otherwise the run always completes and returns its
`ImportResult`. -/
def importCSV (fail : Nat → Bool) (store : List String)
    (input : Except String (List CSVRow)) (fileName : String) (fileSize : Nat) :
    Except String ImportResult :=
  match input with
  | Except.error e => Except.error e
  | Except.ok rows => Except.ok (runRows fail store rows fileName fileSize).results

/-- A row that reaches the buffer: neither blank nor header, and the
transformer accepts it. -/
def validRow (row : CSVRow) : Bool :=
  !(isEmptyRow row || isHeaderRow row) && (transformRowToPost row).isOk

/-- Number of buffer-reaching rows of an input. -/
def validCount (rows : List CSVRow) : Nat := (rows.filter validRow).length

/-- A row whose transformed record's external id is already persisted. -/
def rowAlreadyStored (store : List String) (row : CSVRow) : Bool :=
  match transformRowToPost row with
  | Except.ok post => post.postId ∈ store
  | Except.error _ => false

/-- Total number of records the dedup layer classified as already-existing
duplicates over a flush log (skipped counts of the successful flushes). -/
def flushedDupCount (l : List FlushRec) : Nat :=
  (l.map (fun f => if f.ok then f.skippedCount else 0)).sum

/-- Conserved quantity of the run: every processed row ends up as an
imported record, an errored row or batch slot, a dedup-skipped duplicate,
or a record still sitting in the buffer. -/
def potential (st : LoopState) : Nat :=
  st.results.totalImported + st.results.totalErrors +
    flushedDupCount st.flushes + st.buffer.length

/-- The spec's wording of the influencer-id requirement: the column parses
to a strictly positive integer. -/
def parsesToPositive (o : Option String) : Bool :=
  match parseIntField o with
  | some n => n > 0
  | none => false

/-- A clean row: influencer 1, post id `p1`, 10 likes, 2 comments. -/
def rowClean : CSVRow :=
  ⟨some "1", some "p1", none, some "10", some "2", none, none, none⟩

/-- A row whose influencer id parses to 0 — not a positive integer. -/
def rowZeroId : CSVRow :=
  ⟨some "0", some "p0", none, none, none, none, none, none⟩

/-- A row whose likes column parses to the negative number -5. -/
def rowNegLikes : CSVRow :=
  ⟨some "1", some "p7", none, some "-5", none, none, none, none⟩

/-- A row whose post_date column is present but not a parsable date. -/
def rowBadDate : CSVRow :=
  ⟨some "1", some "p8", none, none, none, none, none, some "notadate"⟩

/-- Two distinct records sharing the same external post id `dup`. -/
def dupPostA : PostData := ⟨1, "dup", none, 5, 0, none, none, none⟩

/-- Second record with external post id `dup`. -/
def dupPostB : PostData := ⟨2, "dup", none, 7, 0, none, none, none⟩

/-- The record produced for `rowNegLikes`. -/
def postNegLikes : PostData := ⟨1, "p7", none, -5, 0, none, none, none⟩

/-- The record produced for `rowBadDate`. -/
def postBadDate : PostData := ⟨1, "p8", none, 0, 0, none, none, some JSDate.invalid⟩

/-- The fuel argument of `chunkIdsAux` is irrelevant once it bounds the
list length. -/
theorem chunkIdsAux_congr (f1 : Nat) : ∀ (f2 : Nat) (l : List String),
    l.length ≤ f1 → l.length ≤ f2 → chunkIdsAux f1 l = chunkIdsAux f2 l := by
  induction f1 with
  | zero =>
    intro f2 l h1 h2
    have hl : l = [] := List.length_eq_zero.mp (by omega)
    subst hl
    cases f2 <;> rfl
  | succ f ih =>
    intro f2 l h1 h2
    cases l with
    | nil => cases f2 <;> rfl
    | cons a t =>
      cases f2 with
      | zero => simp at h2
      | succ g =>
        simp only [chunkIdsAux]
        have hB : 1 ≤ BATCH_SIZE := by norm_num [BATCH_SIZE]
        have hlen : ((a :: t).drop BATCH_SIZE).length ≤ f := by
          simp only [List.length_drop, List.length_cons] at *
          omega
        have hlen2 : ((a :: t).drop BATCH_SIZE).length ≤ g := by
          simp only [List.length_drop, List.length_cons] at *
          omega
        rw [ih g _ hlen hlen2]

/-- The recursive unfolding of the chunking loop. -/
theorem chunkIds_eq (l : List String) :
    chunkIds l = if l = [] then []
      else l.take BATCH_SIZE :: chunkIds (l.drop BATCH_SIZE) := by
  unfold chunkIds
  cases l with
  | nil => rfl
  | cons a t =>
    rw [if_neg (by simp)]
    simp only [List.length_cons, chunkIdsAux]
    congr 1
    apply chunkIdsAux_congr
    · have hB : 1 ≤ BATCH_SIZE := by norm_num [BATCH_SIZE]
      simp only [List.length_drop, List.length_cons]
      omega
    · exact Nat.le_refl _

/-- Concatenating the sub-chunks of the existence lookup gives back the
original candidate id list. -/
theorem chunkIds_flatten (l : List String) : (chunkIds l).flatten = l := by
  rw [chunkIds_eq]
  split
  · simp [*]
  · rename_i h
    have ih := chunkIds_flatten (l.drop BATCH_SIZE)
    simp [ih]
termination_by l.length
decreasing_by
  simp only [List.length_drop]
  have hpos : 0 < l.length := List.length_pos.mpr (by assumption)
  have hB : 1 ≤ BATCH_SIZE := by norm_num [BATCH_SIZE]
  omega

/-- Every sub-chunk of the existence lookup is at most `BATCH_SIZE` long. -/
theorem chunkIds_length_le (l c : List String) (hc : c ∈ chunkIds l) :
    c.length ≤ BATCH_SIZE := by
  rw [chunkIds_eq] at hc
  split at hc
  · simp at hc
  · rcases List.mem_cons.mp hc with rfl | hmem
    · simp [List.length_take]
    · exact chunkIds_length_le (l.drop BATCH_SIZE) c hmem
termination_by l.length
decreasing_by
  simp only [List.length_drop]
  have hpos : 0 < l.length := List.length_pos.mpr (by assumption)
  have hB : 1 ≤ BATCH_SIZE := by norm_num [BATCH_SIZE]
  omega

/-- The chunked lookup finds exactly the candidate ids present in the
store: chunking does not change the answer. -/
theorem mem_lookupExisting (store ids : List String) (x : String) :
    x ∈ lookupExisting store ids ↔ x ∈ store ∧ x ∈ ids := by
  unfold lookupExisting
  rw [List.mem_flatten]
  constructor
  · rintro ⟨s, hs, hx⟩
    rw [List.mem_map] at hs
    obtain ⟨batch, hb, rfl⟩ := hs
    rw [List.mem_filter] at hx
    refine ⟨hx.1, ?_⟩
    have hxb : x ∈ batch := by simpa using hx.2
    have : x ∈ (chunkIds ids).flatten := List.mem_flatten.mpr ⟨batch, hb, hxb⟩
    simpa [chunkIds_flatten] using this
  · rintro ⟨hstore, hids⟩
    have : x ∈ (chunkIds ids).flatten := by simpa [chunkIds_flatten] using hids
    obtain ⟨batch, hb, hx⟩ := List.mem_flatten.mp this
    refine ⟨store.filter (fun y => y ∈ batch), List.mem_map.mpr ⟨batch, hb, rfl⟩, ?_⟩
    exact List.mem_filter.mpr ⟨hstore, by simpa using hx⟩

/-- The create partition of `bulkCreate` is the candidates whose external
id is not yet in the store. -/
theorem bulkCreate_created (store : List String) (posts : List PostData) :
    (bulkCreate store posts).created =
      posts.filter (fun p => ¬ p.postId ∈ store) := by
  unfold bulkCreate
  refine List.filter_congr ?_
  intro p hp
  have hmem : p.postId ∈ posts.map (fun q => q.postId) :=
    List.mem_map.mpr ⟨p, hp, rfl⟩
  simp [mem_lookupExisting, hmem]

/-- The skip partition of `bulkCreate` is the candidates whose external id
is already in the store. -/
theorem bulkCreate_skipped (store : List String) (posts : List PostData) :
    (bulkCreate store posts).skipped =
      posts.filter (fun p => p.postId ∈ store) := by
  unfold bulkCreate
  refine List.filter_congr ?_
  intro p hp
  have hmem : p.postId ∈ posts.map (fun q => q.postId) :=
    List.mem_map.mpr ⟨p, hp, rfl⟩
  simp [mem_lookupExisting, hmem]

/-- Filtering a list by a predicate and by its negation partitions it. -/
theorem length_filter_not_add {α : Type} (l : List α) (p : α → Bool) :
    (l.filter (fun a => !(p a))).length + (l.filter p).length = l.length := by
  induction l with
  | nil => simp
  | cons a t ih =>
    by_cases h : p a = true <;>
      simp [List.filter_cons, h] <;> omega

/-- `bulkCreate` partitions its candidates: created and skipped sizes add
up to the batch size. -/
theorem bulkCreate_partition_length (store : List String) (posts : List PostData) :
    (bulkCreate store posts).created.length +
      (bulkCreate store posts).skipped.length = posts.length := by
  rw [bulkCreate_created, bulkCreate_skipped]
  have h := length_filter_not_add posts (fun p => decide (p.postId ∈ store))
  simpa [decide_not] using h

/-- When every candidate's external id is already in the store,
`bulkCreate` creates nothing, skips everything and leaves the store
unchanged. -/
theorem bulkCreate_all_dup (store : List String) (posts : List PostData)
    (h : ∀ p ∈ posts, p.postId ∈ store) :
    bulkCreate store posts = ⟨[], posts, store⟩ := by
  have hc : (bulkCreate store posts).created = [] := by
    rw [bulkCreate_created]
    rw [List.filter_eq_nil_iff]
    intro p hp
    simp [h p hp]
  have hs : (bulkCreate store posts).skipped = posts := by
    rw [bulkCreate_skipped]
    rw [List.filter_eq_self]
    intro p hp
    simp [h p hp]
  have hstore : (bulkCreate store posts).store = store := by
    unfold bulkCreate
    have : (bulkCreate store posts).created.length = 0 := by rw [hc]; rfl
    rw [bulkCreate_created] at this
    simp only []
    rw [if_neg]
    intro hpos
    have heq : posts.filter
        (fun p => ¬ p.postId ∈ lookupExisting store (posts.map fun q => q.postId)) =
        posts.filter (fun p => ¬ p.postId ∈ store) := by
      refine List.filter_congr ?_
      intro p hp
      have hmem : p.postId ∈ posts.map (fun q => q.postId) :=
        List.mem_map.mpr ⟨p, hp, rfl⟩
      simp [mem_lookupExisting, hmem]
    rw [heq] at hpos
    omega
  cases hb : bulkCreate store posts with
  | mk c s st =>
    rw [hb] at hc hs hstore
    simp at hc hs hstore
    simp [hc, hs, hstore]

@[simp] theorem bumpProcessed_store (st : LoopState) :
    (bumpProcessed st).store = st.store := rfl

@[simp] theorem bumpProcessed_buffer (st : LoopState) :
    (bumpProcessed st).buffer = st.buffer := rfl

@[simp] theorem bumpProcessed_flushes (st : LoopState) :
    (bumpProcessed st).flushes = st.flushes := rfl

@[simp] theorem bumpProcessed_processed (st : LoopState) :
    (bumpProcessed st).results.totalProcessed =
      st.results.totalProcessed + 1 := rfl

@[simp] theorem bumpProcessed_imported (st : LoopState) :
    (bumpProcessed st).results.totalImported = st.results.totalImported := rfl

@[simp] theorem bumpProcessed_errors (st : LoopState) :
    (bumpProcessed st).results.totalErrors = st.results.totalErrors := rfl

@[simp] theorem bumpErrors_store (st : LoopState) :
    (bumpErrors st).store = st.store := rfl

@[simp] theorem bumpErrors_buffer (st : LoopState) :
    (bumpErrors st).buffer = st.buffer := rfl

@[simp] theorem bumpErrors_flushes (st : LoopState) :
    (bumpErrors st).flushes = st.flushes := rfl

@[simp] theorem bumpErrors_processed (st : LoopState) :
    (bumpErrors st).results.totalProcessed = st.results.totalProcessed := rfl

@[simp] theorem bumpErrors_imported (st : LoopState) :
    (bumpErrors st).results.totalImported = st.results.totalImported := rfl

@[simp] theorem bumpErrors_errors (st : LoopState) :
    (bumpErrors st).results.totalErrors = st.results.totalErrors + 1 := rfl

@[simp] theorem withBuffer_store (st : LoopState) (b : List PostData) :
    (withBuffer st b).store = st.store := rfl

@[simp] theorem withBuffer_buffer (st : LoopState) (b : List PostData) :
    (withBuffer st b).buffer = b := rfl

@[simp] theorem withBuffer_flushes (st : LoopState) (b : List PostData) :
    (withBuffer st b).flushes = st.flushes := rfl

@[simp] theorem withBuffer_results (st : LoopState) (b : List PostData) :
    (withBuffer st b).results = st.results := rfl

/-- `processBatch` never touches the buffer. -/
@[simp] theorem processBatch_buffer (fail : Nat → Bool) (st : LoopState)
    (posts : List PostData) :
    (processBatch fail st posts).buffer = st.buffer := by
  unfold processBatch
  split <;> rfl

/-- `processBatch` never touches the processed counter. -/
@[simp] theorem processBatch_processed (fail : Nat → Bool) (st : LoopState)
    (posts : List PostData) :
    (processBatch fail st posts).results.totalProcessed =
      st.results.totalProcessed := by
  unfold processBatch
  split <;> rfl

/-- `processBatch` appends exactly one flush record, whose size is the
batch it was handed. -/
theorem processBatch_sizes (fail : Nat → Bool) (st : LoopState)
    (posts : List PostData) :
    ((processBatch fail st posts).flushes.map (fun f => f.size)) =
      st.flushes.map (fun f => f.size) ++ [posts.length] := by
  unfold processBatch
  split <;> simp

/-- A flush moves exactly the batch's records out of the pipeline's hands:
the conserved quantity grows by the batch size (which the caller removes
from the buffer). -/
theorem processBatch_potential (fail : Nat → Bool) (st : LoopState)
    (posts : List PostData) :
    potential (processBatch fail st posts) = potential st + posts.length := by
  unfold processBatch potential flushedDupCount
  split
  · simp
    omega
  · have hp := bulkCreate_partition_length st.store posts
    simp
    omega

/-- `validCount` over a cons. -/
theorem validCount_cons (row : CSVRow) (rest : List CSVRow) :
    validCount (row :: rest) =
      (if validRow row = true then 1 else 0) + validCount rest := by
  simp only [validCount, List.filter_cons]
  split <;> simp [Nat.add_comm]

/-- Running the stream loop (no final drain) from a buffer below the
threshold: all flushes it performs have exactly the threshold size, their
number is the quotient of buffered-plus-incoming valid records by the
threshold, and the remainder stays in the buffer. -/
theorem stepRows_sizes (fail : Nat → Bool) (rows : List CSVRow) (st : LoopState)
    (h : st.buffer.length < ImportService.BATCH_SIZE) :
    ((stepRows fail rows st).flushes.map (fun f => f.size) =
      st.flushes.map (fun f => f.size) ++
        List.replicate
          ((st.buffer.length + validCount rows) / ImportService.BATCH_SIZE)
          ImportService.BATCH_SIZE) ∧
    (stepRows fail rows st).buffer.length =
      (st.buffer.length + validCount rows) % ImportService.BATCH_SIZE := by
  induction rows generalizing st with
  | nil =>
    have hvc : validCount [] = 0 := rfl
    have h0 : (st.buffer.length + validCount []) / ImportService.BATCH_SIZE = 0 := by
      rw [hvc]
      exact Nat.div_eq_of_lt (by omega)
    have h1 : (st.buffer.length + validCount []) % ImportService.BATCH_SIZE =
        st.buffer.length := by
      rw [hvc]
      exact Nat.mod_eq_of_lt (by omega)
    rw [h0, h1]
    simp [stepRows]
  | cons row rest ih =>
    cases hsk : (isEmptyRow row || isHeaderRow row) with
    | true =>
      have hv : validRow row = false := by simp [validRow, hsk]
      have hvc : validCount (row :: rest) = validCount rest := by
        rw [validCount_cons, hv]
        simp
      simp only [stepRows]
      rw [if_pos hsk, hvc]
      exact ih st h
    | false =>
      simp only [stepRows]
      rw [if_neg (by simp [hsk])]
      cases htr : transformRowToPost row with
      | error e =>
        have hv : validRow row = false := by
          simp [validRow, htr, Except.isOk, Except.toBool]
        have hvc : validCount (row :: rest) = validCount rest := by
          rw [validCount_cons, hv]
          simp
        simp only [htr]
        rw [hvc]
        simpa using ih (bumpErrors (bumpProcessed st)) (by simpa using h)
      | ok post =>
        have hv : validRow row = true := by
          simp [validRow, htr, hsk, Except.isOk, Except.toBool]
        have hvc : validCount (row :: rest) = 1 + validCount rest := by
          rw [validCount_cons, hv]
          simp
        simp only [htr, bumpProcessed_buffer]
        rw [hvc]
        by_cases hfull : (st.buffer ++ [post]).length ≥ ImportService.BATCH_SIZE
        · rw [if_pos hfull]
          have hlen : st.buffer.length + 1 = ImportService.BATCH_SIZE := by
            simp only [List.length_append, List.length_cons, List.length_nil] at hfull
            omega
          obtain ⟨ihsz, ihbuf⟩ := ih
            (processBatch fail (withBuffer (bumpProcessed st) []) (st.buffer ++ [post]))
            (by
              simp only [processBatch_buffer, withBuffer_buffer, List.length_nil]
              simp [ImportService.BATCH_SIZE])
          have hB : 0 < ImportService.BATCH_SIZE := by
            simp [ImportService.BATCH_SIZE]
          have harg : st.buffer.length + (1 + validCount rest) =
              ImportService.BATCH_SIZE + validCount rest := by omega
          constructor
          · rw [ihsz, processBatch_sizes]
            simp only [withBuffer_flushes, bumpProcessed_flushes,
              processBatch_buffer, withBuffer_buffer, List.length_nil,
              List.length_append, List.length_cons, Nat.zero_add]
            rw [harg]
            have hdiv : (ImportService.BATCH_SIZE + validCount rest) /
                ImportService.BATCH_SIZE =
                validCount rest / ImportService.BATCH_SIZE + 1 := by
              rw [Nat.add_comm]
              exact Nat.add_div_right _ hB
            rw [hdiv, List.replicate_succ]
            simp only [List.append_assoc, List.singleton_append]
            have hsz : st.buffer.length + 1 = ImportService.BATCH_SIZE := hlen
            rw [hsz]
          · rw [ihbuf]
            simp only [processBatch_buffer, withBuffer_buffer, List.length_nil,
              Nat.zero_add]
            rw [harg, Nat.add_mod_left]
        · rw [if_neg hfull]
          have hlt : (st.buffer ++ [post]).length < ImportService.BATCH_SIZE := by
            omega
          obtain ⟨ihsz, ihbuf⟩ := ih
            (withBuffer (bumpProcessed st) (st.buffer ++ [post]))
            (by
              simp only [withBuffer_buffer]
              exact hlt)
          have harg : (st.buffer ++ [post]).length + validCount rest =
              st.buffer.length + (1 + validCount rest) := by
            simp only [List.length_append, List.length_cons, List.length_nil]
            omega
          constructor
          · rw [ihsz]
            simp only [withBuffer_flushes, bumpProcessed_flushes, withBuffer_buffer]
            rw [harg]
          · rw [ihbuf]
            simp only [withBuffer_buffer]
            rw [harg]

/-- The final drain flushes the leftover buffer (when non-empty) as one
last batch and leaves the processed counter alone. -/
theorem drainBuffer_sizes (fail : Nat → Bool) (st : LoopState) :
    (drainBuffer fail st).flushes.map (fun f => f.size) =
      st.flushes.map (fun f => f.size) ++
        (if st.buffer.length = 0 then [] else [st.buffer.length]) ∧
    (drainBuffer fail st).results.totalProcessed = st.results.totalProcessed := by
  unfold drainBuffer
  by_cases hb : st.buffer.length > 0
  · rw [if_pos hb]
    constructor
    · rw [processBatch_sizes]
      simp only [withBuffer_flushes]
      rw [if_neg (by omega)]
    · simp
  · rw [if_neg hb]
    rw [if_pos (by omega)]
    simp

/-- Last element of a replicated list. -/
theorem getLast?_replicate (n a : Nat) :
    (List.replicate n a).getLast? = if n = 0 then none else some a := by
  cases n with
  | zero => simp
  | succ m =>
    rw [List.replicate_succ', List.getLast?_concat]
    simp

/-- The conserved quantity is zero at the start of a run. -/
theorem potential_initState (store : List String) (fn : String) (fs : Nat) :
    potential (initState store fn fs) = 0 := rfl

/-- The stream loop conserves `potential` against the processed counter:
every counted row adds one unit to both. -/
theorem stepRows_potential (fail : Nat → Bool) (rows : List CSVRow)
    (st : LoopState) :
    potential (stepRows fail rows st) + st.results.totalProcessed =
      potential st + (stepRows fail rows st).results.totalProcessed := by
  induction rows generalizing st with
  | nil => simp [stepRows]
  | cons row rest ih =>
    cases hsk : (isEmptyRow row || isHeaderRow row) with
    | true =>
      simp only [stepRows]
      rw [if_pos hsk]
      exact ih st
    | false =>
      simp only [stepRows]
      rw [if_neg (by simp [hsk])]
      cases htr : transformRowToPost row with
      | error e =>
        simp only [htr]
        have hih := ih (bumpErrors (bumpProcessed st))
        have h1 : potential (bumpErrors (bumpProcessed st)) = potential st + 1 := by
          unfold potential
          simp
          omega
        have h2 : (bumpErrors (bumpProcessed st)).results.totalProcessed =
            st.results.totalProcessed + 1 := by simp
        omega
      | ok post =>
        simp only [htr, bumpProcessed_buffer]
        by_cases hfull : (st.buffer ++ [post]).length ≥ ImportService.BATCH_SIZE
        · rw [if_pos hfull]
          have hih := ih
            (processBatch fail (withBuffer (bumpProcessed st) []) (st.buffer ++ [post]))
          have h1 : potential
              (processBatch fail (withBuffer (bumpProcessed st) [])
                (st.buffer ++ [post])) = potential st + 1 := by
            rw [processBatch_potential]
            unfold potential
            simp only [withBuffer_buffer, withBuffer_flushes,
              bumpProcessed_flushes, withBuffer_results, bumpProcessed_imported,
              bumpProcessed_errors, List.length_nil, List.length_append,
              List.length_cons]
            omega
          have h2 : (processBatch fail (withBuffer (bumpProcessed st) [])
              (st.buffer ++ [post])).results.totalProcessed =
              st.results.totalProcessed + 1 := by simp
          omega
        · rw [if_neg hfull]
          have hih := ih (withBuffer (bumpProcessed st) (st.buffer ++ [post]))
          have h1 : potential (withBuffer (bumpProcessed st) (st.buffer ++ [post])) =
              potential st + 1 := by
            unfold potential
            simp only [withBuffer_buffer, withBuffer_flushes,
              bumpProcessed_flushes, withBuffer_results, bumpProcessed_imported,
              bumpProcessed_errors, List.length_append, List.length_cons,
              List.length_nil]
            omega
          have h2 : (withBuffer (bumpProcessed st)
              (st.buffer ++ [post])).results.totalProcessed =
              st.results.totalProcessed + 1 := by simp
          omega

/-- The drain conserves `potential`, the processed counter, and empties
the buffer. -/
theorem drainBuffer_potential (fail : Nat → Bool) (st : LoopState) :
    potential (drainBuffer fail st) = potential st ∧
    (drainBuffer fail st).results.totalProcessed =
      st.results.totalProcessed ∧
    (drainBuffer fail st).buffer.length = 0 := by
  unfold drainBuffer
  by_cases hb : st.buffer.length > 0
  · rw [if_pos hb]
    refine ⟨?_, by simp, by simp⟩
    rw [processBatch_potential]
    unfold potential
    simp only [withBuffer_buffer, withBuffer_flushes, withBuffer_results,
      List.length_nil]
    omega
  · rw [if_neg hb]
    exact ⟨rfl, rfl, by omega⟩

/-- A successful flush whose records are all already persisted imports
nothing, errors nothing, leaves the store unchanged and logs a flush that
skipped the whole batch. -/
theorem processBatch_all_dup (fail : Nat → Bool) (st : LoopState)
    (posts : List PostData)
    (hfail : fail st.flushes.length = false)
    (hall : ∀ p ∈ posts, p.postId ∈ st.store) :
    (processBatch fail st posts).store = st.store ∧
    (processBatch fail st posts).results.totalImported =
      st.results.totalImported ∧
    (processBatch fail st posts).results.totalErrors =
      st.results.totalErrors ∧
    (processBatch fail st posts).flushes =
      st.flushes ++ [⟨posts.length, 0, posts.length, true⟩] := by
  have hbc := bulkCreate_all_dup st.store posts hall
  unfold processBatch
  rw [if_neg (by simp [hfail])]
  simp [hbc]

/-- Running the stream loop on rows that are all valid and all already
persisted: the store never changes, every row is counted as processed,
no row is imported or errored, and every flush performed is a successful
all-skipped flush. -/
theorem stepRows_all_dup (rows : List CSVRow) (st : LoopState)
    (hrows : ∀ row ∈ rows, isEmptyRow row = false ∧ isHeaderRow row = false ∧
      rowAlreadyStored st.store row = true)
    (hbuf : ∀ p ∈ st.buffer, p.postId ∈ st.store) :
    (stepRows (fun _ => false) rows st).store = st.store ∧
    (∀ p ∈ (stepRows (fun _ => false) rows st).buffer, p.postId ∈ st.store) ∧
    (stepRows (fun _ => false) rows st).results.totalProcessed =
      st.results.totalProcessed + rows.length ∧
    (stepRows (fun _ => false) rows st).results.totalImported =
      st.results.totalImported ∧
    (stepRows (fun _ => false) rows st).results.totalErrors =
      st.results.totalErrors ∧
    ∀ f ∈ (stepRows (fun _ => false) rows st).flushes,
      f ∈ st.flushes ∨
        (f.ok = true ∧ f.createdCount = 0 ∧ f.skippedCount = f.size) := by
  induction rows generalizing st with
  | nil =>
    refine ⟨rfl, hbuf, by simp [stepRows], rfl, rfl, fun f hf => Or.inl hf⟩
  | cons row rest ih =>
    obtain ⟨hne, hnh, hstored⟩ := hrows row (by simp)
    cases htr : transformRowToPost row with
    | error e =>
      rw [rowAlreadyStored] at hstored
      rw [htr] at hstored
      cases hstored
    | ok post =>
      have hpmem : post.postId ∈ st.store := by
        rw [rowAlreadyStored] at hstored
        rw [htr] at hstored
        simpa using hstored
      simp only [stepRows]
      rw [if_neg (by simp [hne, hnh])]
      simp only [htr, bumpProcessed_buffer]
      have hall : ∀ p ∈ st.buffer ++ [post], p.postId ∈ st.store := by
        intro p hp
        rcases List.mem_append.mp hp with h1 | h2
        · exact hbuf p h1
        · have : p = post := by simpa using h2
          rw [this]
          exact hpmem
      by_cases hfull : (st.buffer ++ [post]).length ≥ ImportService.BATCH_SIZE
      · rw [if_pos hfull]
        obtain ⟨hs2, hi2, he2, hf2⟩ :=
          processBatch_all_dup (fun _ => false)
            (withBuffer (bumpProcessed st) []) (st.buffer ++ [post]) rfl
            (by simpa using hall)
        obtain ⟨ihs, ihb, ihp, ihi, ihe, ihf⟩ := ih
          (processBatch (fun _ => false)
            (withBuffer (bumpProcessed st) []) (st.buffer ++ [post]))
          (by
            intro r hr
            obtain ⟨h1, h2, h3⟩ := hrows r (by simp [hr])
            refine ⟨h1, h2, ?_⟩
            rw [hs2]
            simpa using h3)
          (by
            intro p hp
            rw [processBatch_buffer, withBuffer_buffer] at hp
            cases hp)
        refine ⟨?_, ?_, ?_, ?_, ?_, ?_⟩
        · rw [ihs, hs2]
          simp
        · intro p hp
          have := ihb p hp
          rw [hs2] at this
          simpa using this
        · rw [ihp]
          simp
          omega
        · rw [ihi, hi2]
          simp
        · rw [ihe, he2]
          simp
        · intro f hf
          rcases ihf f hf with hmem | hgood
          · rw [hf2] at hmem
            rcases List.mem_append.mp hmem with hm1 | hm2
            · exact Or.inl (by simpa using hm1)
            · right
              have : f = ⟨(st.buffer ++ [post]).length, 0,
                  (st.buffer ++ [post]).length, true⟩ := by simpa using hm2
              rw [this]
              exact ⟨rfl, rfl, rfl⟩
          · exact Or.inr hgood
      · rw [if_neg hfull]
        obtain ⟨ihs, ihb, ihp, ihi, ihe, ihf⟩ := ih
          (withBuffer (bumpProcessed st) (st.buffer ++ [post]))
          (by
            intro r hr
            obtain ⟨h1, h2, h3⟩ := hrows r (by simp [hr])
            exact ⟨h1, h2, by simpa using h3⟩)
          (by
            intro p hp
            rw [withBuffer_buffer] at hp
            exact hall p hp)
        refine ⟨?_, ?_, ?_, ?_, ?_, ?_⟩
        · rw [ihs]
          simp
        · intro p hp
          have := ihb p hp
          simpa using this
        · rw [ihp]
          simp
          omega
        · rw [ihi]
          simp
        · rw [ihe]
          simp
        · intro f hf
          rcases ihf f hf with hmem | hgood
          · exact Or.inl (by simpa using hmem)
          · exact Or.inr hgood

/-- The transformer fails exactly when the influencer id column does not
parse to an integer, or the post id column is absent or blank. -/
theorem transform_fails_iff (row : CSVRow) :
    (transformRowToPost row).isOk = false ↔
      (parseIntField row.influencer_id = none ∨ truthy row.post_id = false) := by
  unfold transformRowToPost
  cases hp : parseIntField row.influencer_id with
  | none => simp [Except.isOk, Except.toBool]
  | some iid =>
    cases ht : truthy row.post_id with
    | false => simp [ht, Except.isOk, Except.toBool]
    | true =>
      have hne : ¬(row.post_id.getD "" = "") := by
        simpa [truthy] using ht
      simp [ht, hne, Except.isOk, Except.toBool]

/-- The record the transformer returns when it succeeds, field by field. -/
theorem transformRowToPost_ok_fields (row : CSVRow) (iid : Int)
    (hp : parseIntField row.influencer_id = some iid)
    (ht : truthy row.post_id = true) :
    transformRowToPost row = Except.ok
      { influencerId := iid
        postId := row.post_id.getD ""
        shortcode := orUndefined row.shortcode
        likes := jsOrZero (parseIntField row.likes)
        comments := jsOrZero (parseIntField row.comments)
        thumbnail := orUndefined row.thumbnail
        text := orUndefined row.text
        postDate :=
          if truthy row.post_date then some (jsNewDate (row.post_date.getD ""))
          else none } := by
  have hne : ¬(row.post_id.getD "" = "") := by
    simpa [truthy] using ht
  unfold transformRowToPost
  rw [hp]
  simp [ht, hne]

/-- Inversion of a successful transform: the influencer id parsed, the
post id was truthy, and the record is determined by the row. -/
theorem transformRowToPost_ok_elim (row : CSVRow) (post : PostData)
    (h : transformRowToPost row = Except.ok post) :
    ∃ iid, parseIntField row.influencer_id = some iid ∧
      truthy row.post_id = true ∧
      post =
        { influencerId := iid
          postId := row.post_id.getD ""
          shortcode := orUndefined row.shortcode
          likes := jsOrZero (parseIntField row.likes)
          comments := jsOrZero (parseIntField row.comments)
          thumbnail := orUndefined row.thumbnail
          text := orUndefined row.text
          postDate :=
            if truthy row.post_date then
              some (jsNewDate (row.post_date.getD ""))
            else none } := by
  have hok : (transformRowToPost row).isOk = true := by
    rw [h]
    rfl
  have hnot : ¬(parseIntField row.influencer_id = none ∨
      truthy row.post_id = false) := by
    intro hcond
    have := (transform_fails_iff row).mpr hcond
    rw [hok] at this
    cases this
  push_neg at hnot
  obtain ⟨hpn, htn⟩ := hnot
  cases hp : parseIntField row.influencer_id with
  | none => exact absurd hp hpn
  | some iid =>
    have ht : truthy row.post_id = true := by
      cases hb : truthy row.post_id with
      | false => exact absurd hb htn
      | true => rfl
    refine ⟨iid, rfl, ht, ?_⟩
    have hfields := transformRowToPost_ok_fields row iid hp ht
    rw [hfields] at h
    exact (Except.ok.inj h).symm

/-- C3: all-or-nothing batch failure accounting — if the persistence layer
throws for a batch of M records, `totalErrors` grows by exactly M,
`totalImported` and `totalProcessed` are untouched, and `importCSV` still
returns a result (the run is never aborted by a batch failure, whatever
the failure pattern). -/
theorem processBatch_all_or_nothing (fail : Nat → Bool) (st : LoopState)
    (posts : List PostData) (h : fail st.flushes.length = true) :
    ((processBatch fail st posts).results.totalErrors =
        st.results.totalErrors + posts.length ∧
      (processBatch fail st posts).results.totalImported =
        st.results.totalImported ∧
      (processBatch fail st posts).results.totalProcessed =
        st.results.totalProcessed) ∧
    ∀ (store : List String) (rows : List CSVRow) (fn : String) (fs : Nat),
      (importCSV fail store (Except.ok rows) fn fs).isOk = true := by
  constructor
  · unfold processBatch
    rw [if_pos h]
    exact ⟨rfl, rfl, rfl⟩
  · intro store rows fn fs
    rfl

/-- Witness for C3: a failing flush on a one-record batch. -/
theorem processBatch_all_or_nothing_witness :
    ((processBatch (fun _ => true) (initState [] "f" 0) [dupPostA]).results.totalErrors =
        (initState [] "f" 0).results.totalErrors + [dupPostA].length ∧
      (processBatch (fun _ => true) (initState [] "f" 0) [dupPostA]).results.totalImported =
        (initState [] "f" 0).results.totalImported ∧
      (processBatch (fun _ => true) (initState [] "f" 0) [dupPostA]).results.totalProcessed =
        (initState [] "f" 0).results.totalProcessed) ∧
    ∀ (store : List String) (rows : List CSVRow) (fn : String) (fs : Nat),
      (importCSV (fun _ => true) store (Except.ok rows) fn fs).isOk = true :=
  processBatch_all_or_nothing (fun _ => true) (initState [] "f" 0) [dupPostA] rfl

/-- C4 counterexample: a row whose influencer id parses to 0 — not a
positive integer — is nevertheless accepted by the transformer, so the
claimed failure condition (fails iff post id blank or influencer id not a
positive integer) is false at this row. -/
theorem transform_positive_check_counterexample :
    ¬(((transformRowToPost rowZeroId).isOk = false) ↔
      (truthy rowZeroId.post_id = false ∨
        parsesToPositive rowZeroId.influencer_id = false)) := by
  decide

/-- C4 amended: the transformer fails exactly when the external post id is
absent or blank, or the influencer id does not parse to an integer at all
(`NaN`); the sign of the parsed influencer id is not checked. -/
theorem transform_failure_condition (row : CSVRow) :
    (transformRowToPost row).isOk = false ↔
      (parseIntField row.influencer_id = none ∨ truthy row.post_id = false) :=
  transform_fails_iff row

/-- C5: the Dedup Resolver / Batch Committer contract of `bulkCreate` —
the chunked existence lookup answers exactly membership in the store
(restricted to the candidates), every sub-chunk respects the fixed lookup
chunk size 500 (distinct from the ingestion batch threshold 1000), the
partition is a pure set-difference by store membership, and the returned
`created` is the exact `toCreate` list that was attempted. -/
theorem bulkCreate_dedup_resolver_contract (store : List String)
    (posts : List PostData) :
    (∀ x, x ∈ lookupExisting store (posts.map (fun p => p.postId)) ↔
      (x ∈ store ∧ x ∈ posts.map (fun p => p.postId))) ∧
    (∀ c ∈ chunkIds (posts.map (fun p => p.postId)), c.length ≤ BATCH_SIZE) ∧
    BATCH_SIZE = 500 ∧
    ImportService.BATCH_SIZE = 1000 ∧
    (bulkCreate store posts).created =
      posts.filter (fun p => ¬ p.postId ∈ store) ∧
    (bulkCreate store posts).skipped =
      posts.filter (fun p => p.postId ∈ store) :=
  ⟨fun x => mem_lookupExisting store _ x,
    fun c hc => chunkIds_length_le _ c hc, rfl, rfl,
    bulkCreate_created store posts, bulkCreate_skipped store posts⟩

/-- C6: `importCSV` propagates an exception exactly when the CSV stream
itself fails to decode; with a decodable stream it returns a complete
result for every store and every batch-failure pattern — per-row and
per-batch failures never make it throw. -/
theorem importCSV_raises_iff_stream (fail : Nat → Bool) (store : List String)
    (input : Except String (List CSVRow)) (fn : String) (fs : Nat) :
    (∀ e, input = Except.error e →
      importCSV fail store input fn fs = Except.error e) ∧
    (∀ rows, input = Except.ok rows →
      importCSV fail store input fn fs =
        Except.ok (runRows fail store rows fn fs).results) ∧
    (importCSV fail store input fn fs).isOk = input.isOk := by
  refine ⟨?_, ?_, ?_⟩
  · intro e he
    rw [he]
    rfl
  · intro rows hr
    rw [hr]
    rfl
  · cases input <;> rfl

/-- Witness for C6: a failing stream propagates its error; a decodable
stream returns a result even with an always-failing persistence layer. -/
theorem importCSV_raises_iff_stream_witness :
    importCSV (fun _ => true) [] (Except.error "bad stream") "f" 0 =
      Except.error "bad stream" ∧
    importCSV (fun _ => true) [] (Except.ok [rowClean]) "f" 0 =
      Except.ok (runRows (fun _ => true) [] [rowClean] "f" 0).results :=
  ⟨(importCSV_raises_iff_stream (fun _ => true) []
      (Except.error "bad stream") "f" 0).1 "bad stream" rfl,
   (importCSV_raises_iff_stream (fun _ => true) []
      (Except.ok [rowClean]) "f" 0).2.1 [rowClean] rfl⟩

/-- C7 counterexample: a likes column of "-5" produces a negative
likeCount, so the claimed non-negativity is false. -/
theorem transform_negative_likes_counterexample :
    ((transformRowToPost rowNegLikes).toOption.map (fun p => p.likes)) =
      some (-5) ∧ ((-5 : Int) < 0) := by
  constructor
  · decide
  · decide

/-- C7 amended: likeCount and commentCount are integers that default to 0
when the column is absent or fails to parse, and a metric column never
makes the row fail; but a column that parses to a negative number is kept
as-is (no non-negativity guarantee). -/
theorem transform_metric_leniency (row : CSVRow) (post : PostData)
    (h : transformRowToPost row = Except.ok post) :
    post.likes = jsOrZero (parseIntField row.likes) ∧
    post.comments = jsOrZero (parseIntField row.comments) ∧
    (parseIntField row.likes = none → post.likes = 0) ∧
    (parseIntField row.comments = none → post.comments = 0) ∧
    (row.likes = none → post.likes = 0) ∧
    (row.comments = none → post.comments = 0) ∧
    ∀ l c : Option String,
      (transformRowToPost { row with likes := l, comments := c }).isOk =
        (transformRowToPost row).isOk := by
  obtain ⟨iid, hp, ht, hpost⟩ := transformRowToPost_ok_elim row post h
  subst hpost
  refine ⟨rfl, rfl, ?_, ?_, ?_, ?_, ?_⟩
  · intro hn
    simp [hn, jsOrZero]
  · intro hn
    simp [hn, jsOrZero]
  · intro hn
    simp [hn, parseIntField, jsOrZero]
  · intro hn
    simp [hn, parseIntField, jsOrZero]
  · intro l c
    have h1 := transform_fails_iff { row with likes := l, comments := c }
    have h2 := transform_fails_iff row
    cases hx : (transformRowToPost { row with likes := l, comments := c }).isOk <;>
      cases hy : (transformRowToPost row).isOk <;> simp_all

/-- Witness for C7: the amended statement at the negative-likes row. -/
theorem transform_metric_leniency_witness :
    postNegLikes.likes = jsOrZero (parseIntField rowNegLikes.likes) ∧
    postNegLikes.comments = jsOrZero (parseIntField rowNegLikes.comments) ∧
    (parseIntField rowNegLikes.likes = none → postNegLikes.likes = 0) ∧
    (parseIntField rowNegLikes.comments = none → postNegLikes.comments = 0) ∧
    (rowNegLikes.likes = none → postNegLikes.likes = 0) ∧
    (rowNegLikes.comments = none → postNegLikes.comments = 0) ∧
    ∀ l c : Option String,
      (transformRowToPost { rowNegLikes with likes := l, comments := c }).isOk =
        (transformRowToPost rowNegLikes).isOk :=
  transform_metric_leniency rowNegLikes postNegLikes (by rfl)

/-- C8 counterexample: a present but unparseable post_date is stored as an
Invalid Date value in the record, not treated as absent — the claimed
"same as a missing column" is false at this row. -/
theorem transform_bad_date_counterexample :
    ((transformRowToPost rowBadDate).toOption.map (fun p => p.postDate)) =
      some (some JSDate.invalid) ∧
    (some JSDate.invalid ≠ (none : Option JSDate)) := by
  constructor
  · decide
  · decide

/-- C8 amended: a present-but-unparseable post_date makes the transformer
store the Invalid Date value (not absence); absence happens only for a
missing or empty column; and the post_date column never decides row
validity. -/
theorem transform_date_leniency (row : CSVRow) (post : PostData) (s : String)
    (hd : row.post_date = some s) (hs : s ≠ "")
    (hbad : parseYMD s = none)
    (h : transformRowToPost row = Except.ok post) :
    post.postDate = some JSDate.invalid ∧
    post.postDate ≠ none ∧
    ∀ d : Option String,
      (transformRowToPost { row with post_date := d }).isOk =
        (transformRowToPost row).isOk := by
  obtain ⟨iid, hp, ht, hpost⟩ := transformRowToPost_ok_elim row post h
  have htr : truthy row.post_date = true := by
    simp [truthy, hd, hs]
  have hdate : post.postDate = some (jsNewDate (row.post_date.getD "")) := by
    rw [hpost]
    simp [htr]
  have hinv : jsNewDate (row.post_date.getD "") = JSDate.invalid := by
    rw [hd]
    simp [jsNewDate, hbad]
  refine ⟨?_, ?_, ?_⟩
  · rw [hdate, hinv]
  · rw [hdate]
    simp
  · intro d
    have h1 := transform_fails_iff { row with post_date := d }
    have h2 := transform_fails_iff row
    cases hx : (transformRowToPost { row with post_date := d }).isOk <;>
      cases hy : (transformRowToPost row).isOk <;> simp_all

/-- Witness for C8: the amended statement at the bad-date row. -/
theorem transform_date_leniency_witness :
    postBadDate.postDate = some JSDate.invalid ∧
    postBadDate.postDate ≠ none ∧
    ∀ d : Option String,
      (transformRowToPost { rowBadDate with post_date := d }).isOk =
        (transformRowToPost rowBadDate).isOk :=
  transform_date_leniency rowBadDate postBadDate "notadate" rfl
    (by decide) (by decide) (by rfl)

/-- C10: two candidates sharing a fresh external id are both returned in
`created` (the lookup only dedupes against the store, not within the
batch), so the pipeline's imported counter counts both even though the
conflict-skipping insert persists only one row. -/
theorem bulkCreate_intra_batch_double_count :
    (bulkCreate [] [dupPostA, dupPostB]).created = [dupPostA, dupPostB] ∧
    (bulkCreate [] [dupPostA, dupPostB]).store = ["dup"] ∧
    (processBatch (fun _ => false) (initState [] "f" 0)
      [dupPostA, dupPostB]).results.totalImported = 2 := by
  refine ⟨?_, ?_, ?_⟩ <;> decide

/-- C1: idempotence against the store — a run over rows that are all valid
and whose external ids are all already persisted imports nothing, counts
every row as processed, errors nothing, leaves the store unchanged, and
every flush it performs partitions its whole batch into the skipped set. -/
theorem importCSV_idempotent_second_run (store : List String)
    (rows : List CSVRow) (fn : String) (fs : Nat)
    (h : ∀ row ∈ rows, isEmptyRow row = false ∧ isHeaderRow row = false ∧
      rowAlreadyStored store row = true) :
    (runRows (fun _ => false) store rows fn fs).results.totalImported = 0 ∧
    (runRows (fun _ => false) store rows fn fs).results.totalProcessed =
      rows.length ∧
    (runRows (fun _ => false) store rows fn fs).results.totalErrors = 0 ∧
    (runRows (fun _ => false) store rows fn fs).store = store ∧
    ∀ f ∈ (runRows (fun _ => false) store rows fn fs).flushes,
      f.ok = true ∧ f.createdCount = 0 ∧ f.skippedCount = f.size := by
  obtain ⟨hs, hb, hp, hi, he, hf⟩ :=
    stepRows_all_dup rows (initState store fn fs)
      (by
        intro row hr
        obtain ⟨h1, h2, h3⟩ := h row hr
        exact ⟨h1, h2, h3⟩)
      (by
        intro p hp
        simp [initState] at hp)
  unfold runRows drainBuffer
  by_cases hbpos :
      (stepRows (fun _ => false) rows (initState store fn fs)).buffer.length > 0
  · rw [if_pos hbpos]
    have hall : ∀ p ∈ (stepRows (fun _ => false) rows (initState store fn fs)).buffer,
        p.postId ∈ (withBuffer
          (stepRows (fun _ => false) rows (initState store fn fs)) []).store := by
      intro p hpm
      rw [withBuffer_store, hs]
      exact hb p hpm
    obtain ⟨ds, di, de, df⟩ :=
      processBatch_all_dup (fun _ => false)
        (withBuffer (stepRows (fun _ => false) rows (initState store fn fs)) [])
        (stepRows (fun _ => false) rows (initState store fn fs)).buffer
        rfl hall
    refine ⟨?_, ?_, ?_, ?_, ?_⟩
    · rw [di, withBuffer_results, hi]
      rfl
    · rw [processBatch_processed, withBuffer_results, hp]
      simp [initState]
    · rw [de, withBuffer_results, he]
      rfl
    · rw [ds, withBuffer_store, hs]
      rfl
    · intro f hfm
      rw [df] at hfm
      rw [withBuffer_flushes] at hfm
      rcases List.mem_append.mp hfm with hm1 | hm2
      · rcases hf f hm1 with hinit | hgood
        · simp [initState] at hinit
        · exact hgood
      · have : f = ⟨(stepRows (fun _ => false) rows
            (initState store fn fs)).buffer.length, 0,
            (stepRows (fun _ => false) rows
              (initState store fn fs)).buffer.length, true⟩ := by
          simpa using hm2
        rw [this]
        exact ⟨rfl, rfl, rfl⟩
  · rw [if_neg hbpos]
    refine ⟨?_, ?_, ?_, ?_, ?_⟩
    · rw [hi]
      rfl
    · rw [hp]
      simp [initState]
    · rw [he]
      rfl
    · rw [hs]
      rfl
    · intro f hfm
      rcases hf f hfm with hinit | hgood
      · simp [initState] at hinit
      · exact hgood

/-- Witness for C1: re-importing a clean one-row file whose post id is
already persisted. -/
theorem importCSV_idempotent_second_run_witness :
    (runRows (fun _ => false) ["p1"] [rowClean] "posts.csv" 42).results.totalImported = 0 ∧
    (runRows (fun _ => false) ["p1"] [rowClean] "posts.csv" 42).results.totalProcessed =
      [rowClean].length ∧
    (runRows (fun _ => false) ["p1"] [rowClean] "posts.csv" 42).results.totalErrors = 0 ∧
    (runRows (fun _ => false) ["p1"] [rowClean] "posts.csv" 42).store = ["p1"] ∧
    ∀ f ∈ (runRows (fun _ => false) ["p1"] [rowClean] "posts.csv" 42).flushes,
      f.ok = true ∧ f.createdCount = 0 ∧ f.skippedCount = f.size :=
  importCSV_idempotent_second_run ["p1"] [rowClean] "posts.csv" 42 (by decide)

/-- C2: batch-boundary correctness — with threshold B = 1000 and N valid
rows, the flush log consists of exactly N / B full-size flushes followed by
one flush of N mod B records when N is not a multiple of B; hence
`processBatch` runs exactly the ceiling of N / B times, the last flush has
exactly N mod B records (B when B divides N), and the flush sizes sum to N
(invalid rows never occupy buffer slots). -/
theorem importCSV_batch_boundary (fail : Nat → Bool) (store : List String)
    (rows : List CSVRow) (fn : String) (fs : Nat) :
    ((runRows fail store rows fn fs).flushes.map (fun f => f.size) =
      List.replicate (validCount rows / ImportService.BATCH_SIZE)
        ImportService.BATCH_SIZE ++
        (if validCount rows % ImportService.BATCH_SIZE = 0 then []
         else [validCount rows % ImportService.BATCH_SIZE])) ∧
    (runRows fail store rows fn fs).flushes.length =
      (validCount rows + ImportService.BATCH_SIZE - 1) /
        ImportService.BATCH_SIZE ∧
    ((runRows fail store rows fn fs).flushes.map (fun f => f.size)).getLast? =
      (if validCount rows = 0 then none
       else if validCount rows % ImportService.BATCH_SIZE = 0 then
         some ImportService.BATCH_SIZE
       else some (validCount rows % ImportService.BATCH_SIZE)) ∧
    ((runRows fail store rows fn fs).flushes.map (fun f => f.size)).sum =
      validCount rows := by
  obtain ⟨hsz, hbuf⟩ := stepRows_sizes fail rows (initState store fn fs)
    (by simp [initState, ImportService.BATCH_SIZE])
  obtain ⟨hdsz, hdp⟩ :=
    drainBuffer_sizes fail (stepRows fail rows (initState store fn fs))
  have hsz' : (stepRows fail rows (initState store fn fs)).flushes.map
      (fun f => f.size) =
      List.replicate (validCount rows / ImportService.BATCH_SIZE)
        ImportService.BATCH_SIZE := by
    rw [hsz]
    simp [initState]
  have hbuf' : (stepRows fail rows (initState store fn fs)).buffer.length =
      validCount rows % ImportService.BATCH_SIZE := by
    rw [hbuf]
    simp [initState]
  have hmain : (runRows fail store rows fn fs).flushes.map (fun f => f.size) =
      List.replicate (validCount rows / ImportService.BATCH_SIZE)
        ImportService.BATCH_SIZE ++
        (if validCount rows % ImportService.BATCH_SIZE = 0 then []
         else [validCount rows % ImportService.BATCH_SIZE]) := by
    unfold runRows
    rw [hdsz, hsz', hbuf']
  refine ⟨hmain, ?_, ?_, ?_⟩
  · have hlen := congrArg List.length hmain
    rw [List.length_map] at hlen
    by_cases hr : validCount rows % ImportService.BATCH_SIZE = 0
    · rw [if_pos hr] at hlen
      simp [List.length_replicate] at hlen
      rw [hlen]
      simp only [ImportService.BATCH_SIZE] at hr ⊢
      omega
    · rw [if_neg hr] at hlen
      simp [List.length_replicate] at hlen
      rw [hlen]
      simp only [ImportService.BATCH_SIZE] at hr ⊢
      omega
  · by_cases h0 : validCount rows = 0
    · rw [if_pos h0, hmain, h0]
      simp
    · rw [if_neg h0]
      by_cases hr : validCount rows % ImportService.BATCH_SIZE = 0
      · rw [if_pos hr, hmain, if_pos hr]
        rw [List.append_nil, getLast?_replicate]
        have hne : ¬(validCount rows / ImportService.BATCH_SIZE = 0) := by
          simp only [ImportService.BATCH_SIZE] at *
          omega
        rw [if_neg hne]
      · rw [if_neg hr, hmain, if_neg hr]
        rw [List.getLast?_concat]
  · rw [hmain]
    by_cases hr : validCount rows % ImportService.BATCH_SIZE = 0
    · rw [if_pos hr]
      rw [List.append_nil, List.sum_replicate, smul_eq_mul]
      simp only [ImportService.BATCH_SIZE] at hr ⊢
      omega
    · rw [if_neg hr]
      rw [List.sum_append, List.sum_replicate, smul_eq_mul]
      simp only [ImportService.BATCH_SIZE] at hr ⊢
      simp
      omega

/-- C9: counter invariant — at the end of any run (for any stream, store
and failure pattern) `totalImported + totalErrors ≤ totalProcessed` and
the difference is exactly the number of records the dedup layer classified
as already-existing duplicates; and after any prefix of the stream the
same holds with the still-buffered records added. -/
theorem importCSV_counter_invariant (fail : Nat → Bool) (store : List String)
    (rows : List CSVRow) (fn : String) (fs : Nat) :
    ((runRows fail store rows fn fs).results.totalImported +
        (runRows fail store rows fn fs).results.totalErrors ≤
      (runRows fail store rows fn fs).results.totalProcessed) ∧
    ((runRows fail store rows fn fs).results.totalProcessed =
      (runRows fail store rows fn fs).results.totalImported +
        (runRows fail store rows fn fs).results.totalErrors +
        flushedDupCount (runRows fail store rows fn fs).flushes) ∧
    ∀ pre : List CSVRow,
      (stepRows fail pre (initState store fn fs)).results.totalProcessed =
        (stepRows fail pre (initState store fn fs)).results.totalImported +
          (stepRows fail pre (initState store fn fs)).results.totalErrors +
          flushedDupCount (stepRows fail pre (initState store fn fs)).flushes +
          (stepRows fail pre (initState store fn fs)).buffer.length := by
  have hstep : ∀ pre : List CSVRow,
      potential (stepRows fail pre (initState store fn fs)) =
        (stepRows fail pre (initState store fn fs)).results.totalProcessed := by
    intro pre
    have hpot := stepRows_potential fail pre (initState store fn fs)
    rw [potential_initState] at hpot
    have hzero : (initState store fn fs).results.totalProcessed = 0 := rfl
    omega
  obtain ⟨hdpot, hdproc, hdbuf⟩ :=
    drainBuffer_potential fail (stepRows fail rows (initState store fn fs))
  have hrun : potential (runRows fail store rows fn fs) =
      (runRows fail store rows fn fs).results.totalProcessed := by
    unfold runRows
    rw [hdpot, hdproc, hstep rows]
  have hbuf0 : (runRows fail store rows fn fs).buffer.length = 0 := by
    unfold runRows
    exact hdbuf
  unfold potential at hrun
  rw [hbuf0] at hrun
  refine ⟨by omega, by omega, ?_⟩
  intro pre
  have hpre := hstep pre
  unfold potential at hpre
  omega

end Influencer
